import Mathlib

/-!
Shallow embedding of `jsonpp.py`, the streaming JSON pretty-printer of the
panzi/jsonpp repository, together with theorems settling the specification
claims about it.

The embedding follows the source file closely:

* `Event` is the vocabulary of the emission-sink protocol: the methods of
  `PlainFormatter`/`TTYFormatter` that the renderer calls (`cdata`,
  `begin_string`, `end_string`, `escape_sequence`, `bracket`, `value`,
  `delimeter` — the source's spelling).
* `plainEmit`/`ttyEmit` are the two formatter implementations, mapping one
  event to the text it writes (source lines 31-84).
* `PyValue` is the input data: the Python values the renderer can receive.
  `PyValue.other` stands for a value of any type outside the supported
  union (the `else: raise ValueError(value)` branch).  A Python `float` is
  carried as `PyFloat`: the renderer only inspects `isnan`, `isinf`, the
  sign of an infinity, and otherwise uses `repr(value)`, so a finite float
  is represented by its `repr` string (which CPython guarantees to be a
  round-trippable shortest decimal form).  A Python `str` is a sequence of
  code points, modelled as `List Nat`.
* `handle` is the recursive renderer `handle(value, indentation)` of
  `jsonpp` (source lines 120-210), producing the list of emitted events, or
  `Option.none` when the Python code raises.  The raising branches are the
  `ValueError` for unsupported values and the `TypeError` that `sorted`
  raises on mutually incomparable dict keys.
-/

namespace Jsonpp

/-- ANSI SGR constants used by `TTYFormatter` (source lines 13-28). -/
def DEFAULT_COLOR : String := "\x1B[39m"

/-- Red: begins a string body (source line 15). -/
def RED : String := "\x1B[31m"

/-- Magenta: wraps scalar value tokens (source line 19). -/
def MAGENTA : String := "\x1B[35m"

/-- Cyan: marks escape sequences inside strings (source line 20). -/
def CYAN : String := "\x1B[36m"

/-- Emission-sink events: one constructor per formatter method the renderer
calls.  `delimeter` keeps the source's spelling. -/
inductive Event where
  | cdata (s : String)
  | begin_str : Event
  | end_str : Event
  | escape_seq (s : String)
  | bracket (s : String)
  | value (s : String)
  | delimeter (s : String)
  deriving DecidableEq

/-- `PlainFormatter` (source lines 31-65): every method writes its argument
verbatim; `begin_string`/`end_string` write nothing. -/
def plainEmit : Event → String
  | .cdata s => s
  | .begin_str => ""
  | .end_str => ""
  | .escape_seq s => s
  | .bracket s => s
  | .value s => s
  | .delimeter s => s

/-- `TTYFormatter` (source lines 67-84): overrides `begin_string`,
`end_string`, `escape_sequence` and `value` with colorized writes; the
inherited `cdata`, `bracket` and `delimeter` stay plain. -/
def ttyEmit : Event → String
  | .cdata s => s
  | .begin_str => RED
  | .end_str => DEFAULT_COLOR
  | .escape_seq s => CYAN ++ s ++ RED
  | .bracket s => s
  | .value s => MAGENTA ++ s ++ DEFAULT_COLOR
  | .delimeter s => s

/-- A Python `float` as the renderer observes it (source lines 127-136):
`isnan(value)`, `isinf(value)` with the sign test `value < 0.0`, and for
finite values only `repr(value)`.  `finite r` carries that `repr` string;
CPython's float `repr` is the shortest decimal that round-trips. -/
inductive PyFloat where
  | nan : PyFloat
  | inf (neg : Bool)
  | finite (r : String)

/-- A Python value fed to `jsonpp`.  `str` is the sequence of code points of
the Python string.  `dict` is the insertion-ordered key/value sequence; keys
of a real Python dict are unique, but they need not be strings, which is why
the key component is a full `PyValue`.  `other` is a value of any type
outside the supported union. -/
inductive PyValue where
  | none : PyValue
  | bool (b : Bool)
  | int (n : Int)
  | float (f : PyFloat)
  | str (cps : List Nat)
  | list (xs : List PyValue)
  | dict (es : List (PyValue × PyValue))
  | other : PyValue

/-- `CHAR_MAP` (source lines 102-110), keyed by code point: the
two-character backslash escapes without the forward-slash entry. -/
def CHAR_MAP : List (Nat × String) :=
  [(34, "\\\""), (92, "\\\\"), (8, "\\b"), (12, "\\f"), (10, "\\n"), (13, "\\r"), (9, "\\t")]

/-- `SLASH_CHAR_MAP` (source lines 91-100): `CHAR_MAP` plus the
forward-slash entry `'/': '\\/'`. -/
def SLASH_CHAR_MAP : List (Nat × String) :=
  [(34, "\\\""), (92, "\\\\"), (47, "\\/"), (8, "\\b"), (12, "\\f"), (10, "\\n"), (13, "\\r"), (9, "\\t")]

/-- Python's `c.isprintable()`.  The renderer consults it only when the code
point is at most 127 (the `cp > 127` disjunct short-circuits first at source
line 146); on that ASCII domain Python's `isprintable` is exactly
`0x20 ≤ cp ≤ 0x7E` (controls and DEL are unprintable, space is printable). -/
def pyIsprintable (cp : Nat) : Bool := 32 ≤ cp && cp ≤ 126

/-- Python's `'%04X' % n`: uppercase hexadecimal, zero-padded on the left to
at least four digits (more digits are kept when the number needs them). -/
def pyHex04X (n : Nat) : String :=
  let ds := (Nat.toDigits 16 n).map Char.toUpper
  String.mk (List.replicate (4 - ds.length) '0' ++ ds)

/-- One `\uXXXX` escape unit, `'\\u%04X' % cp` (source line 148). -/
def uEscape (cp : Nat) : String := "\\u" ++ pyHex04X cp

/-- The event the renderer emits for one character of a string (source lines
141-156).  `escape_slash` selects `SLASH_CHAR_MAP` over `CHAR_MAP` (source
line 113).  The surrogate branch mirrors the Python arithmetic on `int`:
`>> 10` is floor division by 1024 and `%` is Python's sign-of-divisor
remainder, so both are computed in `Int` with `fdiv`/`fmod` (for
`cp = 0xFFFF` the intermediate `cp - 0x10000` is negative). -/
def charEvent (escape_slash : Bool) (cp : Nat) : Event :=
  match (if escape_slash then SLASH_CHAR_MAP else CHAR_MAP).lookup cp with
  | some esc => .escape_seq esc
  | Option.none =>
    if cp > 127 || !(pyIsprintable cp) then
      if cp < 0xFFFF then
        .escape_seq (uEscape cp)
      else
        let c : Int := (cp : Int) - 0x10000
        let high := (Int.fdiv c 1024 + 0xD800).toNat
        let low := (Int.fmod c 1024 + 0xDC00).toNat
        .escape_seq (uEscape high ++ uEscape low)
    else
      .cdata (String.singleton (Char.ofNat cp))

/-- Python string `<`: code-point lexicographic, a proper prefix is smaller. -/
def strLt : List Nat → List Nat → Bool
  | [], [] => false
  | [], _ :: _ => true
  | _ :: _, [] => false
  | a :: xs, b :: ys => if a < b then true else if b < a then false else strLt xs ys

/-- Python's numeric view of a `bool` (`bool` is a subclass of `int`). -/
def pyBoolInt (b : Bool) : Int := if b then 1 else 0

/-- Python `<` between two dict keys, as used by `sorted` (source line 182).
`Option.none` models the `TypeError` Python raises on an unsupported
comparison.  Strings compare lexicographically; `int` and `bool` compare
numerically with each other.  Key types outside these (floats, whose
numeric value the repr-string model does not carry, and cross-type or
unsupported-type comparisons, which raise in Python) are treated as
incomparable; no claim sorts such keys. -/
def pyKeyLt : PyValue → PyValue → Option Bool
  | .str a, .str b => some (strLt a b)
  | .int a, .int b => some (decide (a < b))
  | .int a, .bool b => some (decide (a < pyBoolInt b))
  | .bool a, .int b => some (decide (pyBoolInt a < b))
  | .bool a, .bool b => some (decide (pyBoolInt a < pyBoolInt b))
  | _, _ => Option.none

/-- Insert into an ascending prefix using a partial Python `<`;
`Option.none` propagates a `TypeError` from a comparison. -/
def pyInsertBy (lt : α → α → Option Bool) (x : α) : List α → Option (List α)
  | [] => some [x]
  | y :: ys =>
    match lt x y with
    | Option.none => Option.none
    | some true => some (x :: y :: ys)
    | some false =>
      match pyInsertBy lt x ys with
      | some zs => some (y :: zs)
      | Option.none => Option.none

/-- Sorting with a partial Python `<`.  Python's `sorted` uses a different
comparison schedule (Timsort), but on pairwise-comparable inputs it
succeeds with the same ascending result, and on the concrete incomparable
inputs the claims touch both raise; see `pyKeyLt`. -/
def pySortBy (lt : α → α → Option Bool) : List α → Option (List α)
  | [] => some []
  | y :: ys =>
    match pySortBy lt ys with
    | some zs => pyInsertBy lt y zs
    | Option.none => Option.none

/-- Configuration of one `jsonpp` call: the `indent`, `escape_slash` and
`sort_keys` keyword arguments (source line 112). -/
structure Config where
  indent : String
  escape_slash : Bool
  sort_keys : Bool

/-- The defaults of `jsonpp(data, output, indent='\t', ..., escape_slash=False,
sort_keys=False)`. -/
def cfg0 : Config := ⟨"\t", false, false⟩

/-- Events of the non-first dict entries: each is preceded by `','` and the
newline-plus-indent cdata (source lines 192-200). -/
def restEntriesEvents (itemInd : String) : List (PyValue × List Event) → List Event
  | [] => []
  | (_, ev) :: rest => [.delimeter ",", .cdata itemInd] ++ ev ++ restEntriesEvents itemInd rest

/-- Ordering of rendered dict entries by their key, Python `<`. -/
def entryLt (a b : PyValue × List Event) : Option Bool := pyKeyLt a.1 b.1

/-- Ascending adjacency of rendered dict entries: the later entry's key is
not less than the earlier entry's key (and the two are comparable). -/
def entryLe (a b : PyValue × List Event) : Prop := pyKeyLt b.1 a.1 = some false

mutual
/-- The recursive renderer `handle(value, indentation)` (source lines
120-210), returning the emitted events, or `Option.none` when the call
raises.  The branch order mirrors the source's `if`/`elif` chain; since
Python's `bool` is a subclass of `int`, a `bool` satisfies
`isinstance(value, int)` (source line 124) and is rendered there as
`repr(value)`, i.e. `"True"`/`"False"` — the `isinstance(value, bool)`
branch at source line 206 sits after it and is unreachable.  For a dict the
source sorts the keys first and then renders each entry; entry rendering is
independent of the other entries, so the embedding renders the entries in
insertion order and sorts the rendered entries by key, which produces the
same event stream and fails exactly when the source raises. -/
def handle (cfg : Config) : PyValue → String → Option (List Event)
  | .none, _ => some [.value "null"]
  | .bool b, _ => some [.value (if b then "True" else "False")]
  | .int n, _ => some [.value (toString n)]
  | .float .nan, _ => some [.value "NaN"]
  | .float (.inf neg), _ => some [.value (if neg then "-Infinity" else "Infinity")]
  | .float (.finite r), _ => some [.value r]
  | .str cps, _ =>
    some ([.begin_str, .cdata "\""] ++ cps.map (charEvent cfg.escape_slash) ++ [.cdata "\"", .end_str])
  | .list [], _ => some [.bracket "[", .bracket "]"]
  | .list (x :: xs), ind =>
    match handle cfg x (ind ++ cfg.indent), handleItems cfg xs (ind ++ cfg.indent) with
    | some fe, some re =>
      some ([.bracket "[", .cdata ("\n" ++ (ind ++ cfg.indent))] ++ fe ++ re
        ++ [.cdata ("\n" ++ ind), .bracket "]"])
    | _, _ => Option.none
  | .dict es, ind =>
    match handleEntries cfg es (ind ++ cfg.indent) with
    | Option.none => Option.none
    | some tri =>
      match (if cfg.sort_keys then pySortBy entryLt tri else some tri) with
      | Option.none => Option.none
      | some [] => some [.bracket "\x7b", .bracket "\x7d"]
      | some ((_, ev0) :: rest) =>
        some ([.bracket "\x7b", .cdata ("\n" ++ (ind ++ cfg.indent))] ++ ev0
          ++ restEntriesEvents ("\n" ++ (ind ++ cfg.indent)) rest
          ++ [.cdata ("\n" ++ ind), .bracket "\x7d"])
  | .other, _ => Option.none

/-- Events of the non-first list items: each preceded by `','` and the
newline-plus-indent cdata (source lines 168-171). -/
def handleItems (cfg : Config) : List PyValue → String → Option (List Event)
  | [], _ => some []
  | x :: xs, sub =>
    match handle cfg x sub, handleItems cfg xs sub with
    | some ev, some rest => some ([.delimeter ",", .cdata ("\n" ++ sub)] ++ ev ++ rest)
    | _, _ => Option.none

/-- Rendered dict entries, in insertion order: each entry keeps its key (for
the later sort) together with its events `handle(key)`, `':'`, `' '`,
`handle(val)` (source lines 187-190). -/
def handleEntries (cfg : Config) : List (PyValue × PyValue) → String → Option (List (PyValue × List Event))
  | [], _ => some []
  | (k, v) :: es, sub =>
    match handle cfg k sub, handle cfg v sub, handleEntries cfg es sub with
    | some kev, some vev, some rest =>
      some ((k, kev ++ [.delimeter ":", .cdata " "] ++ vev) :: rest)
    | _, _, _ => Option.none
end

/-- `jsonpp(data, output, ...)`: `handle(data, '')` followed by the trailing
`cdata('\n')` (source lines 212-213). -/
def jsonppEvents (cfg : Config) (data : PyValue) : Option (List Event) :=
  match handle cfg data "" with
  | some evs => some (evs ++ [.cdata "\n"])
  | Option.none => Option.none

/-- Full text written through `PlainFormatter`. -/
def renderPlain (cfg : Config) (data : PyValue) : Option String :=
  match jsonppEvents cfg data with
  | some evs => some (String.join (evs.map plainEmit))
  | Option.none => Option.none

/-- Full text written through `TTYFormatter` (colorized mode). -/
def renderTTY (cfg : Config) (data : PyValue) : Option String :=
  match jsonppEvents cfg data with
  | some evs => some (String.join (evs.map ttyEmit))
  | Option.none => Option.none

mutual
/-- Every node of the tree is of a supported type: no `PyValue.other`
anywhere, keys included. -/
def supported : PyValue → Bool
  | .other => false
  | .list xs => supportedItems xs
  | .dict es => supportedEntries es
  | _ => true

def supportedItems : List PyValue → Bool
  | [] => true
  | x :: xs => supported x && supportedItems xs

def supportedEntries : List (PyValue × PyValue) → Bool
  | [] => true
  | (k, v) :: es => supported k && supported v && supportedEntries es
end

/-- A value admissible as a dict key in the spec's data model: a string, or
the defensive unsupported node (whose rendering raises anyway). -/
def keyOk : PyValue → Bool
  | .str _ => true
  | .other => true
  | _ => false

mutual
/-- Every dict key in the tree is a string (or an unsupported node): the
domain of the spec's data model, in which objects map string keys to
values.  Outside it, `sorted` can raise `TypeError` on mixed keys even
though every node type is in the supported union. -/
def keysOk : PyValue → Bool
  | .list xs => keysOkItems xs
  | .dict es => keysOkEntries es
  | _ => true

def keysOkItems : List PyValue → Bool
  | [] => true
  | x :: xs => keysOk x && keysOkItems xs

def keysOkEntries : List (PyValue × PyValue) → Bool
  | [] => true
  | (k, v) :: es => keyOk k && keysOk v && keysOkEntries es
end

theorem string_empty_append (s : String) : "" ++ s = s := rfl

theorem string_append_empty (s : String) : s ++ "" = s := by
  cases s with
  | mk data =>
    show String.mk (data ++ []) = String.mk data
    simp

/-- C1: the spec requires `value("true")`/`value("false")` for booleans via
a distinct boolean case, but Python's `bool` is a subclass of `int`, so a
boolean satisfies `isinstance(value, int)` at source line 124 and is
rendered there as `repr(value)`: the capitalized Python tokens
`True`/`False`, which are not valid JSON.  The distinct boolean branch at
source lines 206-207 is dead code.  The booleans still never render as the
integer tokens `1`/`0`. -/
theorem c1_bool_renders_python_repr :
    renderPlain cfg0 (.bool true) = some "True\n" ∧
    renderPlain cfg0 (.bool false) = some "False\n" ∧
    renderPlain cfg0 (.bool true) ≠ some "true\n" ∧
    renderPlain cfg0 (.bool true) ≠ some "1\n" ∧
    renderPlain cfg0 (.bool false) ≠ some "0\n" := by
  decide

/-- C2: the claim (and the spec) says a code point of at most 0xFFFF is
escaped as a single `\uXXXX` unit, but the code at source line 147 tests
`cp < 0xFFFF` strictly, so exactly U+FFFF falls into the surrogate branch,
where `cp - 0x10000 = -1` yields the bogus escape `\uD7FF\uDFFF` (0xD7FF is
not even a high surrogate, so this does not decode back to U+FFFF).  All
other points behave as claimed: below 0xFFFF a single unit, above it the
correct surrogate pair, e.g. U+1F600 as `\uD83D\uDE00`. -/
theorem c2_uescape_boundary :
    charEvent false 0xFFFF = .escape_seq "\\uD7FF\\uDFFF" ∧
    charEvent false 0xFFFE = .escape_seq "\\uFFFE" ∧
    charEvent false 0x1F600 = .escape_seq "\\uD83D\\uDE00" ∧
    charEvent false 0x10000 = .escape_seq "\\uD800\\uDC00" ∧
    renderPlain cfg0 (.str [0x1F600]) = some "\"\\uD83D\\uDE00\"\n" := by
  decide

/-- C3: the render/parse round trip fails on real inputs even without
NaN/Infinity floats: the one-character string U+FFFF renders as the escape
`\uD7FF\uDFFF`, which no JSON parser reads back as U+FFFF, and the boolean
`True` renders as the non-JSON token `True` rather than `true` (see C1 and
C2 for the two underlying slips). -/
theorem c3_roundtrip_broken :
    renderPlain cfg0 (.str [0xFFFF]) = some "\"\\uD7FF\\uDFFF\"\n" ∧
    renderPlain cfg0 (.bool true) ≠ some "true\n" := by
  decide

/-- C5: each of the seven special characters is emitted as its two-character
backslash escape through `escape_sequence` under either character map, and
the forward slash is escaped exactly when `escape_slash` is enabled, so
`"a/b"` renders as `a\/b` with the flag and as `a/b` without. -/
theorem c5_two_char_escapes :
    (∀ es : Bool,
      charEvent es 34 = .escape_seq "\\\"" ∧
      charEvent es 92 = .escape_seq "\\\\" ∧
      charEvent es 8 = .escape_seq "\\b" ∧
      charEvent es 12 = .escape_seq "\\f" ∧
      charEvent es 10 = .escape_seq "\\n" ∧
      charEvent es 13 = .escape_seq "\\r" ∧
      charEvent es 9 = .escape_seq "\\t") ∧
    charEvent true 47 = .escape_seq "\\/" ∧
    charEvent false 47 = .cdata "/" ∧
    renderPlain ⟨"\t", true, false⟩ (.str [97, 47, 98]) = some "\"a\\/b\"\n" ∧
    renderPlain cfg0 (.str [97, 47, 98]) = some "\"a/b\"\n" := by
  decide

/-- C6: for every configuration (any indent unit) and at every nesting
level, an empty array is exactly the two bracket events `[`/`]` and an
empty object exactly `{`/`}`, with no interior cdata, so the full renders
are `[]` and `{}` (plus the top-level trailing newline). -/
theorem c6_empty_containers (cfg : Config) (ind : String) :
    handle cfg (.list []) ind = some [.bracket "[", .bracket "]"] ∧
    handle cfg (.dict []) ind = some [.bracket "\x7b", .bracket "\x7d"] ∧
    renderPlain cfg (.list []) = some "[]\n" ∧
    renderPlain cfg (.dict []) = some "\x7b\x7d\n" := by
  refine ⟨rfl, ?_, rfl, ?_⟩
  · cases h : cfg.sort_keys <;> simp [handle, handleEntries, h, pySortBy]
  · cases h : cfg.sort_keys <;>
      simp [renderPlain, jsonppEvents, handle, handleEntries, h, pySortBy] <;> rfl

/-- C7: a float renders through `value` with the special values checked
first — NaN as the bare token `NaN`, the infinities as `Infinity` and
`-Infinity` — and every finite float as `repr(value)`, CPython's shortest
round-trippable decimal representation, carried by the `finite`
constructor of the float model. -/
theorem c7_float_rendering (cfg : Config) (ind : String) (r : String) :
    handle cfg (.float .nan) ind = some [.value "NaN"] ∧
    handle cfg (.float (.inf true)) ind = some [.value "-Infinity"] ∧
    handle cfg (.float (.inf false)) ind = some [.value "Infinity"] ∧
    handle cfg (.float (.finite r)) ind = some [.value r] ∧
    renderPlain cfg0 (.float .nan) = some "NaN\n" := by
  exact ⟨rfl, rfl, rfl, rfl, by decide⟩

/-- C9: the styled formatter emits exactly the claimed ANSI codes — red
(ESC[31m) when a string body begins, the default-foreground reset
(ESC[39m) when it ends, cyan (ESC[36m) before an escape sequence with the
string red restored after it, and magenta (ESC[35m) around a scalar value
followed by the reset — while brackets, delimiters and cdata are written
exactly as by the plain formatter, with no color codes. -/
theorem c9_tty_colors (s : String) :
    ttyEmit .begin_str = "\x1B[31m" ∧
    ttyEmit .end_str = "\x1B[39m" ∧
    ttyEmit (.escape_seq s) = "\x1B[36m" ++ s ++ "\x1B[31m" ∧
    ttyEmit (.value s) = "\x1B[35m" ++ s ++ "\x1B[39m" ∧
    ttyEmit (.bracket s) = plainEmit (.bracket s) ∧
    ttyEmit (.delimeter s) = plainEmit (.delimeter s) ∧
    ttyEmit (.cdata s) = plainEmit (.cdata s) ∧
    renderTTY cfg0 (.int 5) = some ("\x1B[35m" ++ "5" ++ "\x1B[39m" ++ "\n") := by
  exact ⟨rfl, rfl, rfl, rfl, rfl, rfl, rfl, by decide⟩

/-- C10 counterexample: the claim says a dict with a non-string key of an
otherwise supported type never makes the render call raise, but with
`sort_keys` enabled the dict `{1: None, "a": None}` raises: `sorted` has to
compare the `str` key with the `int` key, which is a `TypeError` in Python
(modelled by the incomparable case of `pyKeyLt`). -/
theorem c10_sorted_nonstring_key_raises :
    renderPlain ⟨"\t", false, true⟩ (.dict [(.int 1, .none), (.str [97], .none)]) =
      Option.none := by
  decide


/-- Python string `<` is asymmetric. -/
theorem strLt_asymm : ∀ (a b : List Nat), strLt a b = true → strLt b a = false
  | [], [] => by simp [strLt]
  | [], _ :: _ => by simp [strLt]
  | _ :: _, [] => by simp [strLt]
  | a :: xs, b :: ys => by
    by_cases h1 : a < b
    · intro _
      simp [strLt, h1, show ¬b < a by omega]
    · by_cases h2 : b < a
      · simp [strLt, h1, h2]
      · have hab : a = b := by omega
        subst hab
        simp only [strLt, lt_irrefl, if_false]
        exact strLt_asymm xs ys

/-- Inserting an entry with a string key into an ascending all-string-keyed
prefix succeeds and keeps the list ascending; the result is a permutation
of the inserted element on the input, and its head is the new element or
the old head. -/
theorem pyInsert_str (kv : PyValue × List Event) (s : List Nat) (hk : kv.1 = PyValue.str s) :
    ∀ (l : List (PyValue × List Event)),
      (∀ x ∈ l, ∃ t, x.1 = PyValue.str t) → List.Chain' entryLe l →
      ∃ l', pyInsertBy entryLt kv l = some l' ∧ List.Chain' entryLe l' ∧
        l'.Perm (kv :: l) ∧ (∀ x ∈ l', ∃ t, x.1 = PyValue.str t) ∧
        (l'.head? = some kv ∨ l'.head? = l.head?)
  | [], _, _ => by
    refine ⟨[kv], by simp [pyInsertBy], by simp, by simp, ?_, by simp⟩
    intro x hx
    simp at hx
    subst hx
    exact ⟨s, hk⟩
  | y :: ys, hstr, hch => by
    obtain ⟨t, ht⟩ := hstr y (by simp)
    have hcmp : entryLt kv y = some (strLt s t) := by
      simp [entryLt, hk, ht, pyKeyLt]
    cases hlt : strLt s t with
    | true =>
      refine ⟨kv :: y :: ys, ?_, ?_, List.Perm.refl _, ?_, by simp⟩
      · simp [pyInsertBy, hcmp, hlt]
      · rw [List.chain'_cons]
        refine ⟨?_, hch⟩
        show pyKeyLt y.1 kv.1 = some false
        rw [ht, hk]
        simp [pyKeyLt, strLt_asymm s t hlt]
      · intro x hx
        rcases List.mem_cons.mp hx with hx | hx
        · subst hx; exact ⟨s, hk⟩
        · exact hstr x (by simp [hx])
    | false =>
      obtain ⟨zs, hzs, hchz, hperm, hstrz, hhead⟩ :=
        pyInsert_str kv s hk ys (fun x hx => hstr x (by simp [hx])) hch.tail
      refine ⟨y :: zs, ?_, ?_, ?_, ?_, by simp⟩
      · simp [pyInsertBy, hcmp, hlt, hzs]
      · rw [List.chain'_cons']
        refine ⟨?_, hchz⟩
        intro z hz
        rcases hhead with hh | hh
        · rw [hh] at hz
          simp at hz
          subst hz
          show pyKeyLt kv.1 y.1 = some false
          rw [hk, ht]
          simp [pyKeyLt, hlt]
        · rw [hh] at hz
          exact (List.chain'_cons'.mp hch).1 z hz
      · exact (List.Perm.cons y hperm).trans (List.Perm.swap kv y ys)
      · intro x hx
        rcases List.mem_cons.mp hx with hx | hx
        · subst hx; exact ⟨t, ht⟩
        · exact hstrz x hx

/-- Sorting rendered entries whose keys are all strings succeeds and yields
an ascending permutation of the input. -/
theorem pySortBy_str : ∀ (l : List (PyValue × List Event)),
    (∀ x ∈ l, ∃ t, x.1 = PyValue.str t) →
    ∃ l', pySortBy entryLt l = some l' ∧ List.Chain' entryLe l' ∧ l'.Perm l ∧
      (∀ x ∈ l', ∃ t, x.1 = PyValue.str t)
  | [], _ => ⟨[], by simp [pySortBy], by simp, by simp, by simp⟩
  | y :: ys, hstr => by
    obtain ⟨zs, hzs, hchz, hperm, hstrz⟩ :=
      pySortBy_str ys (fun x hx => hstr x (by simp [hx]))
    obtain ⟨t, ht⟩ := hstr y (by simp)
    obtain ⟨l', hl', hch', hperm', hstr', _⟩ := pyInsert_str y t ht zs hstrz hchz
    refine ⟨l', ?_, hch', ?_, hstr'⟩
    · simp [pySortBy, hzs, hl']
    · exact hperm'.trans (List.Perm.cons y hperm)



/-- Rendering dict entries preserves the key sequence. -/
theorem handleEntries_keys (cfg : Config) :
    ∀ (es : List (PyValue × PyValue)) (sub : String) (tri : List (PyValue × List Event)),
      handleEntries cfg es sub = some tri → tri.map Prod.fst = es.map Prod.fst := by
  intro es
  induction es with
  | nil =>
    intro sub tri h
    simp [handleEntries] at h
    subst h
    simp
  | cons e rest ih =>
    obtain ⟨k, v⟩ := e
    intro sub tri h
    cases h1 : handle cfg k sub with
    | none => simp [handleEntries, h1] at h
    | some kev =>
      cases h2 : handle cfg v sub with
      | none => simp [handleEntries, h1, h2] at h
      | some vev =>
        cases h3 : handleEntries cfg rest sub with
        | none => simp [handleEntries, h1, h2, h3] at h
        | some r =>
          simp [handleEntries, h1, h2, h3] at h
          subst h
          simp [ih sub r h3]

/-- In the spec's data model (keys strings or unsupported), every key of a
fully supported entry list is a string. -/
theorem entries_keys_str :
    ∀ (es : List (PyValue × PyValue)),
      keysOkEntries es = true → supportedEntries es = true →
      ∀ p ∈ es, ∃ s, p.1 = PyValue.str s := by
  intro es
  induction es with
  | nil => simp
  | cons e rest ih =>
    obtain ⟨k, v⟩ := e
    intro hok hsup p hp
    simp only [keysOkEntries, Bool.and_eq_true] at hok
    simp only [supportedEntries, Bool.and_eq_true] at hsup
    rcases List.mem_cons.mp hp with hp | hp
    · subst hp
      cases k <;> simp_all [keyOk, supported]
    · exact ih hok.2 hsup.2 p hp

mutual
/-- The renderer succeeds exactly on fully supported trees, provided the
tree is in the spec's data model whenever key sorting is on: `handle`
returns `some` if and only if no node is of an unsupported type. -/
theorem handle_isSome : ∀ (cfg : Config) (v : PyValue) (ind : String),
    (cfg.sort_keys = false ∨ keysOk v = true) →
    (handle cfg v ind).isSome = supported v
  | cfg, .none, ind, _ => by simp [handle, supported]
  | cfg, .bool b, ind, _ => by simp [handle, supported]
  | cfg, .int n, ind, _ => by simp [handle, supported]
  | cfg, .float .nan, ind, _ => by simp [handle, supported]
  | cfg, .float (.inf neg), ind, _ => by simp [handle, supported]
  | cfg, .float (.finite r), ind, _ => by simp [handle, supported]
  | cfg, .str cps, ind, _ => by simp [handle, supported]
  | cfg, .list [], ind, _ => by simp [handle, supported, supportedItems]
  | cfg, .list (x :: xs), ind, h => by
    have h2 : cfg.sort_keys = false ∨ (keysOk x = true ∧ keysOkItems xs = true) := by
      rcases h with h | h
      · exact Or.inl h
      · right
        simpa [keysOk, keysOkItems] using h
    have hx := handle_isSome cfg x (ind ++ cfg.indent) (h2.imp id And.left)
    have hr := handleItems_isSome cfg xs (ind ++ cfg.indent) (h2.imp id And.right)
    cases h1 : handle cfg x (ind ++ cfg.indent) <;>
      cases hh2 : handleItems cfg xs (ind ++ cfg.indent) <;>
        simp [h1, hh2] at hx hr <;>
          simp [handle, h1, hh2, supported, supportedItems, hx, hr]
  | cfg, .dict es, ind, h => by
    have h2 : cfg.sort_keys = false ∨ keysOkEntries es = true := by
      rcases h with h | h
      · exact Or.inl h
      · exact Or.inr (by simpa [keysOk] using h)
    have he := handleEntries_isSome cfg es (ind ++ cfg.indent) h2
    cases h1 : handleEntries cfg es (ind ++ cfg.indent) with
    | none =>
      simp [h1] at he
      simp [handle, h1, supported, he]
    | some tri =>
      simp [h1] at he
      cases hs : (if cfg.sort_keys then pySortBy entryLt tri else some tri) with
      | some l =>
        cases l with
        | nil => simp [handle, h1, hs, supported, he]
        | cons p rest =>
          obtain ⟨pk, pev⟩ := p
          simp [handle, h1, hs, supported, he]
      | none =>
        exfalso
        rcases h2 with hoff | hok
        · rw [hoff] at hs
          simp at hs
        · have hmap := handleEntries_keys cfg es (ind ++ cfg.indent) tri h1
          have hstr : ∀ x ∈ tri, ∃ s, x.1 = PyValue.str s := by
            intro x hx
            have hm : x.1 ∈ tri.map Prod.fst := List.mem_map_of_mem _ hx
            rw [hmap] at hm
            rcases List.mem_map.mp hm with ⟨p, hp, hpe⟩
            rcases entries_keys_str es hok he p hp with ⟨s, hs'⟩
            exact ⟨s, by rw [← hpe, hs']⟩
          rcases pySortBy_str tri hstr with ⟨l', hl', _⟩
          cases hsk : cfg.sort_keys
          · rw [hsk] at hs
            simp at hs
          · rw [hsk] at hs
            simp at hs
            rw [hl'] at hs
            exact Option.noConfusion hs
  | cfg, .other, ind, _ => by simp [handle, supported]
theorem handleItems_isSome : ∀ (cfg : Config) (xs : List PyValue) (sub : String),
    (cfg.sort_keys = false ∨ keysOkItems xs = true) →
    (handleItems cfg xs sub).isSome = supportedItems xs
  | cfg, [], sub, _ => by simp [handleItems, supportedItems]
  | cfg, x :: xs, sub, h => by
    have h2 : cfg.sort_keys = false ∨ (keysOk x = true ∧ keysOkItems xs = true) := by
      rcases h with h | h
      · exact Or.inl h
      · right
        simpa [keysOkItems] using h
    have hx := handle_isSome cfg x sub (h2.imp id And.left)
    have hr := handleItems_isSome cfg xs sub (h2.imp id And.right)
    cases h1 : handle cfg x sub <;> cases h2' : handleItems cfg xs sub <;>
      simp [h1, h2'] at hx hr <;>
        simp [handleItems, h1, h2', supportedItems, hx, hr]
theorem handleEntries_isSome : ∀ (cfg : Config) (es : List (PyValue × PyValue)) (sub : String),
    (cfg.sort_keys = false ∨ keysOkEntries es = true) →
    (handleEntries cfg es sub).isSome = supportedEntries es
  | cfg, [], sub, _ => by simp [handleEntries, supportedEntries]
  | cfg, (k, v) :: es, sub, h => by
    have hd : cfg.sort_keys = false ∨
        (keyOk k = true ∧ keysOk v = true ∧ keysOkEntries es = true) := by
      rcases h with h | h
      · exact Or.inl h
      · right
        simpa [keysOkEntries, and_assoc] using h
    have hkOk : cfg.sort_keys = false ∨ keysOk k = true := by
      rcases hd with hd | hd
      · exact Or.inl hd
      · right
        rcases hd with ⟨h1, _, _⟩
        cases k <;> simp_all [keyOk, keysOk]
    have hk := handle_isSome cfg k sub hkOk
    have hv := handle_isSome cfg v sub (hd.imp id (fun q => q.2.1))
    have hr := handleEntries_isSome cfg es sub (hd.imp id (fun q => q.2.2))
    cases h1 : handle cfg k sub <;> cases h2 : handle cfg v sub <;>
      cases h3 : handleEntries cfg es sub <;>
        simp [h1, h2, h3] at hk hv hr <;>
          simp [handleEntries, h1, h2, h3, supportedEntries, hk, hv, hr]
end



/-- C8: within the spec's data model (object keys are strings; any node may
still be of an unsupported type, which `keysOk` also admits), the render
call raises — `Option.none`, the error propagating to the caller — if and
only if some node of the tree has a type outside the supported union
{null, boolean, integer, float, string, array, object}; for every tree
whose nodes all lie in the union, no error is raised.  The `keysOk`
hypothesis is needed only when `sort_keys` is enabled: outside the spec's
data model, `sorted` can raise `TypeError` on mixed keys (see C10). -/
theorem c8_raises_iff_unsupported (cfg : Config) (v : PyValue)
    (h : cfg.sort_keys = false ∨ keysOk v = true) :
    renderPlain cfg v = Option.none ↔ supported v = false := by
  have hh := handle_isSome cfg v "" h
  cases h1 : handle cfg v "" with
  | none =>
    simp [h1] at hh
    simp [renderPlain, jsonppEvents, h1, hh]
  | some evs =>
    simp [h1] at hh
    simp [renderPlain, jsonppEvents, h1, hh]

theorem c8_raises_iff_unsupported_witness :
    renderPlain cfg0 PyValue.other = Option.none :=
  (c8_raises_iff_unsupported cfg0 PyValue.other (Or.inl rfl)).mpr (by decide)

/-- C4: the spec's example object with keys `b` then `a` renders `b` first
by default and `a` first with sort-keys enabled; in general, the key sort
applied by the dict branch succeeds on string keys and emits the entries
as a permutation of the input in ascending (adjacent-wise non-descending)
key order, while the default branch passes the entries through in
insertion order. -/
theorem c4_key_order :
    renderPlain cfg0 (.dict [(.str [98], .int 1), (.str [97], .int 2)]) =
      some "\x7b\n\t\"b\": 1,\n\t\"a\": 2\n\x7d\n" ∧
    renderPlain ⟨"\t", false, true⟩ (.dict [(.str [98], .int 1), (.str [97], .int 2)]) =
      some "\x7b\n\t\"a\": 2,\n\t\"b\": 1\n\x7d\n" ∧
    (∀ (l l' : List (PyValue × List Event)),
      (∀ x ∈ l, ∃ t, x.1 = PyValue.str t) →
      pySortBy entryLt l = some l' →
      l'.Perm l ∧ List.Chain' entryLe l') := by
  refine ⟨by decide, by decide, ?_⟩
  intro l l' hstr hsort
  rcases pySortBy_str l hstr with ⟨l'', h1, h2, h3, _⟩
  rw [h1] at hsort
  obtain rfl := Option.some.inj hsort
  exact ⟨h3, h2⟩

theorem c4_key_order_witness :
    List.Perm [((PyValue.str [97] : PyValue), ([] : List Event))]
        [(PyValue.str [97], [])] ∧
    List.Chain' entryLe [(PyValue.str [97], [])] :=
  c4_key_order.2.2 [(PyValue.str [97], [])] [(PyValue.str [97], [])]
    (by
      intro x hx
      simp at hx
      exact ⟨[97], by rw [hx]⟩)
    rfl

/-- C10 (amended): with sort-keys disabled (the default), a dict with an
integer key renders without raising; the key goes through the same general
`handle` as any value and is emitted as the unquoted decimal `value` token
`repr(k)` rather than a quoted JSON string, so the output is not valid
JSON (a JSON object member must start with a quoted string). -/
theorem c10_int_key_unquoted (cfg : Config) (k : Int) (v : PyValue)
    (hs : cfg.sort_keys = false) (hv : supported v = true) :
    ∃ ev, handle cfg v cfg.indent = some ev ∧
      handle cfg (.dict [(.int k, v)]) "" =
        some ([.bracket "\x7b", .cdata ("\n" ++ cfg.indent), .value (toString k),
          .delimeter ":", .cdata " "] ++ ev ++ [.cdata "\n", .bracket "\x7d"]) := by
  have hh := handle_isSome cfg v cfg.indent (Or.inl hs)
  rw [hv] at hh
  rcases Option.isSome_iff_exists.mp hh with ⟨ev, hev⟩
  refine ⟨ev, hev, ?_⟩
  simp only [handle, handleEntries, string_empty_append, string_append_empty, hev, hs]
  simp [restEntriesEvents]

theorem c10_int_key_unquoted_witness :
    ∃ ev, handle cfg0 PyValue.none cfg0.indent = some ev ∧
      handle cfg0 (.dict [(.int 1, PyValue.none)]) "" =
        some ([.bracket "\x7b", .cdata ("\n" ++ cfg0.indent), .value (toString (1 : Int)),
          .delimeter ":", .cdata " "] ++ ev ++ [.cdata "\n", .bracket "\x7d"]) :=
  c10_int_key_unquoted cfg0 1 PyValue.none rfl (by decide)


end Jsonpp
